import Mathlib

/-!
Verification of the recurrence engine of the my-finance-app repository
(src/services/recurrenceService.ts) against its natural-language
specification.

Dates are exchanged by the engine as calendar dates without time-of-day;
we model a date as a (year, month, day) triple in the proleptic Gregorian
calendar and model the date-fns helpers used by the source (startOfDay is
the identity on such triples; comparisons compare timestamps, which at
day resolution is the rata-die ordinal).
-/

structure Date where
  year : Nat
  month : Nat
  day : Nat
deriving DecidableEq, Repr

/-- Gregorian leap-year test. -/
def isLeap (y : Nat) : Bool :=
  (y % 4 == 0 && y % 100 != 0) || y % 400 == 0

/-- One extra day in leap years. -/
def leapAdjust (y : Nat) : Nat :=
  if isLeap y then 1 else 0

/-- Number of days of month m (1..12) of year y. -/
def daysInMonth (y m : Nat) : Nat :=
  match m with
  | 1 => 31
  | 2 => 28 + leapAdjust y
  | 3 => 31
  | 4 => 30
  | 5 => 31
  | 6 => 30
  | 7 => 31
  | 8 => 31
  | 9 => 30
  | 10 => 31
  | 11 => 30
  | 12 => 31
  | _ => 31

/-- Number of days of year y that lie strictly before month m (1..13). -/
def daysBeforeMonth (y m : Nat) : Nat :=
  match m with
  | 1 => 0
  | 2 => 31
  | 3 => 59 + leapAdjust y
  | 4 => 90 + leapAdjust y
  | 5 => 120 + leapAdjust y
  | 6 => 151 + leapAdjust y
  | 7 => 181 + leapAdjust y
  | 8 => 212 + leapAdjust y
  | 9 => 243 + leapAdjust y
  | 10 => 273 + leapAdjust y
  | 11 => 304 + leapAdjust y
  | 12 => 334 + leapAdjust y
  | 13 => 365 + leapAdjust y
  | _ => 0

/-- Number of days in the years 1..y. -/
def daysBeforeYear (y : Nat) : Nat :=
  365 * y + y / 4 - y / 100 + y / 400

/-- Rata-die style ordinal of a date: day 1-1-1 has ordinal 1. -/
def toOrdinal (d : Date) : Nat :=
  daysBeforeYear (d.year - 1) + daysBeforeMonth d.year d.month + d.day

/-- Validity of a (year, month, day) triple. -/
def ValidDate (d : Date) : Prop :=
  1 ≤ d.year ∧ 1 ≤ d.month ∧ d.month ≤ 12 ∧ 1 ≤ d.day ∧ d.day ≤ daysInMonth d.year d.month

instance (d : Date) : Decidable (ValidDate d) := by
  unfold ValidDate; infer_instance

/-- Calendar successor of a date. -/
def succDate (d : Date) : Date :=
  if d.day < daysInMonth d.year d.month then ⟨d.year, d.month, d.day + 1⟩
  else if d.month < 12 then ⟨d.year, d.month + 1, 1⟩
  else ⟨d.year + 1, 1, 1⟩

/-- Model of date-fns addDays (n days forward). -/
def addDays (d : Date) : Nat → Date
  | 0 => d
  | n + 1 => succDate (addDays d n)

/-- Model of date-fns addMonths with argument 1: the month is advanced and
the day is clamped to the length of the target month. -/
def addMonths1 (d : Date) : Date :=
  if d.month = 12 then
    ⟨d.year + 1, 1, min d.day (daysInMonth (d.year + 1) 1)⟩
  else
    ⟨d.year, d.month + 1, min d.day (daysInMonth d.year (d.month + 1))⟩

/-- Model of date-fns getDay: day of week, 0 = Sunday .. 6 = Saturday.
Ordinal 1 (January 1 of year 1) was a Monday, so the ordinal mod 7 gives
exactly this numbering. -/
def getDay (d : Date) : Nat :=
  toOrdinal d % 7

/-- Model of date-fns getDate: the day-of-month component. -/
def getDate (d : Date) : Nat :=
  d.day

/-- Model of getDate (endOfMonth date) as used by the source. -/
def lastDayOfMonth (d : Date) : Nat :=
  daysInMonth d.year d.month

/-- Model of date-fns isBefore on start-of-day dates. -/
def isBefore (a b : Date) : Bool :=
  decide (toOrdinal a < toOrdinal b)

/-- Model of date-fns isAfter on start-of-day dates. -/
def isAfter (a b : Date) : Bool :=
  decide (toOrdinal b < toOrdinal a)

/-- Model of date-fns isSameDay on start-of-day dates. -/
def isSameDay (a b : Date) : Bool :=
  decide (toOrdinal a = toOrdinal b)

/-! Data model of the recurrence engine, following src/types/database:
frequency is the closed union daily | weekly | monthly, day_of_week and
day_of_month are nullable integers, start_date is required, end_date and
last_generated_date are nullable. Identifiers (UUIDs) are modelled as
naturals, DECIMAL amounts as integers (no claim computes on amounts),
timestamps as naturals. -/

inductive Frequency where
  | daily
  | weekly
  | monthly
deriving DecidableEq, Repr

inductive TxnKind where
  | income
  | expense
deriving DecidableEq, Repr

structure RecurrentTransaction where
  id : Nat
  user_id : Nat
  category_id : Option Nat
  amount : Int
  description : Option String
  type : TxnKind
  frequency : Frequency
  day_of_week : Option Nat
  day_of_month : Option Nat
  requires_approval : Bool
  is_active : Bool
  start_date : Date
  end_date : Option Date
  last_generated_date : Option Date
deriving DecidableEq, Repr

structure Transaction where
  user_id : Nat
  category_id : Option Nat
  amount : Int
  description : Option String
  date : Date
  type : TxnKind
  recurrent_transaction_id : Option Nat
deriving DecidableEq, Repr

structure PendingApproval where
  id : Nat
  user_id : Nat
  recurrent_transaction_id : Nat
  scheduled_date : Date
  is_approved : Option Bool
  approved_at : Option Nat
deriving DecidableEq, Repr

/-- State of the external record store as seen by the engine. -/
structure DB where
  rules : List RecurrentTransaction
  transactions : List Transaction
  approvals : List PendingApproval
  nextApprovalId : Nat
deriving DecidableEq, Repr

/-- Transient storage faults injected per call site, modelling the error
slots of the supabase responses the source destructures. -/
structure StorageFaults where
  approvalCheckError : Bool
  approvalInsertError : Bool
  txnInsertError : Bool
  ruleUpdateError : Bool
deriving DecidableEq, Repr

def noFaults : StorageFaults :=
  ⟨false, false, false, false⟩

namespace RecurrenceService

/-- Translation of RecurrenceService.matchesFrequency. On the weekly arm
the source compares getDay date with the nullable day_of_week using strict
equality, which is false when the field is null; on the monthly arm the
source reads day_of_month with a non-null assertion, and a null value
coerces to 0 in Math.min, making the comparison false for valid dates. -/
def matchesFrequency (r : RecurrentTransaction) (date : Date) : Bool :=
  match r.frequency with
  | Frequency.daily => true
  | Frequency.weekly =>
    match r.day_of_week with
    | some w => getDay date == w
    | none => false
  | Frequency.monthly =>
    match r.day_of_month with
    | some targetDay => getDate date == min targetDay (lastDayOfMonth date)
    | none => false

/-- Translation of RecurrenceService.shouldGenerateToday, with the wall
clock passed explicitly as today. -/
def shouldGenerateToday (r : RecurrentTransaction) (today : Date) : Bool :=
  if isBefore today r.start_date then false
  else if (match r.last_generated_date with
           | some lastGenerated => isSameDay lastGenerated today
           | none => false) then false
  else
    match r.end_date with
    | some endDate => if isAfter today endDate then false else matchesFrequency r today
    | none => matchesFrequency r today

/-- Bounded form of the weekly while loop of getNextOccurrence, which
advances one day at a time until getDay equals the target. Seven steps
always suffice when the target is a weekday 0..6 (see the lemmas below);
for other targets the source loop would not terminate. -/
def weeklyAdvance : Nat → Date → Nat → Date
  | 0, d, _ => d
  | fuel + 1, d, w => if getDay d = w then d else weeklyAdvance fuel (succDate d) w

/-- Translation of RecurrenceService.getNextOccurrence. The none arms of
the day fields are unreachable under the schema constraints (day_of_week
NOT NULL for weekly, day_of_month NOT NULL for monthly). -/
def getNextOccurrence (r : RecurrentTransaction) (afterDate : Date) : Date :=
  match r.frequency with
  | Frequency.daily => addDays afterDate 1
  | Frequency.weekly =>
    match r.day_of_week with
    | some w => weeklyAdvance 7 (addDays afterDate 1) w
    | none => addDays afterDate 1
  | Frequency.monthly =>
    let nextDate := addMonths1 afterDate
    match r.day_of_month with
    | some targetDay => { nextDate with day := min targetDay (lastDayOfMonth nextDate) }
    | none => nextDate

/-- Body of the while loop of calculateNextOccurrences: each iteration
either pushes the next occurrence or stops when it exceeds end_date; the
fuel is the number of slots still to fill. -/
def genLoop (r : RecurrentTransaction) : Nat → Date → List Date
  | 0, _ => []
  | fuel + 1, currentDate =>
    let next := getNextOccurrence r currentDate
    match r.end_date with
    | some endDate =>
      if isAfter next endDate then [] else next :: genLoop r fuel next
    | none => next :: genLoop r fuel next

/-- Translation of RecurrenceService.calculateNextOccurrences, with the
wall clock passed explicitly as today and count restricted to naturals. -/
def calculateNextOccurrences (r : RecurrentTransaction) (count : Nat) (today : Date) :
    List Date :=
  let currentDate := if isBefore today r.start_date then r.start_date else today
  if matchesFrequency r currentDate then
    currentDate :: genLoop r (count - 1) currentDate
  else
    genLoop r count currentDate

/-- Count of pending_recurrent_approvals rows with the given rule id and
scheduled date, as queried by generateTransaction. -/
def countApprovalsFor (db : DB) (rid : Nat) (d : Date) : Nat :=
  db.approvals.countP (fun a => a.recurrent_transaction_id == rid && a.scheduled_date == d)

def insertTransaction (db : DB) (t : Transaction) : DB :=
  { db with transactions := db.transactions ++ [t] }

def insertPendingApproval (db : DB) (a : PendingApproval) : DB :=
  { db with approvals := db.approvals ++ [a], nextApprovalId := db.nextApprovalId + 1 }

def updateRuleMarker (db : DB) (rid : Nat) (d : Date) : DB :=
  { db with rules := db.rules.map fun r =>
      if r.id = rid then { r with last_generated_date := some d } else r }

/-- Translation of RecurrenceService.generateTransaction for an
authenticated user uid. On the approval path the source inserts only when
the existence query returned no error and count 0; a query error is
neither thrown nor retried. On the auto path the transaction insert
precedes the marker update, and a failure of either is thrown. -/
def generateTransaction (uid : Nat) (today : Date) (f : StorageFaults)
    (r : RecurrentTransaction) (db : DB) : Except (String × DB) DB :=
  if r.requires_approval then
    if f.approvalCheckError then Except.ok db
    else if countApprovalsFor db r.id today = 0 then
      if f.approvalInsertError then Except.error ("insert pending approval failed", db)
      else Except.ok (insertPendingApproval db
        { id := db.nextApprovalId, user_id := uid, recurrent_transaction_id := r.id,
          scheduled_date := today, is_approved := none, approved_at := none })
    else Except.ok db
  else
    if f.txnInsertError then Except.error ("insert transaction failed", db)
    else
      let db1 := insertTransaction db
        { user_id := uid, category_id := r.category_id, amount := r.amount,
          description := r.description, date := today, type := r.type,
          recurrent_transaction_id := some r.id }
      if f.ruleUpdateError then Except.error ("update rule failed", db1)
      else Except.ok (updateRuleMarker db1 r.id today)

/-- Per-rule loop of RecurrenceService.processRecurrences: an error thrown
while processing one rule propagates out of the loop (the catch block
rethrows), carrying the store state reached so far. -/
def processLoop (uid : Nat) (today : Date) (faults : Nat → StorageFaults) :
    List RecurrentTransaction → DB → Except (String × DB) DB
  | [], db => Except.ok db
  | r :: rest, db =>
    if shouldGenerateToday r today then
      match generateTransaction uid today (faults r.id) r db with
      | Except.error e => Except.error e
      | Except.ok db1 => processLoop uid today faults rest db1
    else processLoop uid today faults rest db

/-- Translation of RecurrenceService.processRecurrences: fetch the active
rules once, then run the per-rule loop. -/
def processRecurrences (uid : Nat) (today : Date) (faults : Nat → StorageFaults)
    (db : DB) : Except (String × DB) DB :=
  processLoop uid today faults (db.rules.filter fun r => r.is_active) db

def findApproval (db : DB) (aid : Nat) : Option PendingApproval :=
  db.approvals.find? (fun a => a.id == aid)

def findRule (db : DB) (rid : Nat) : Option RecurrentTransaction :=
  db.rules.find? (fun r => r.id == rid)

def setApprovalDecision (db : DB) (aid : Nat) (decision : Bool) (now : Nat) : DB :=
  { db with approvals := db.approvals.map fun a =>
      if a.id = aid then { a with is_approved := some decision, approved_at := some now } else a }

/-- Translation of RecurrenceService.approvePendingTransaction: load the
approval and its rule, insert the transaction dated scheduled_date, mark
the approval approved, stamp the rule marker. The source never checks
is_approved before doing so. -/
def approvePendingTransaction (uid : Nat) (now : Nat) (aid : Nat) (db : DB) :
    Except (String × DB) DB :=
  match findApproval db aid with
  | none => Except.error ("Pending approval not found", db)
  | some approval =>
    match findRule db approval.recurrent_transaction_id with
    | none => Except.error ("Pending approval not found", db)
    | some recurrence =>
      let db1 := insertTransaction db
        { user_id := uid, category_id := recurrence.category_id, amount := recurrence.amount,
          description := recurrence.description, date := approval.scheduled_date,
          type := recurrence.type, recurrent_transaction_id := some recurrence.id }
      let db2 := setApprovalDecision db1 aid true now
      Except.ok (updateRuleMarker db2 recurrence.id approval.scheduled_date)

/-- Translation of RecurrenceService.rejectPendingTransaction: a single
update of the approval row; last_generated_date is deliberately left
untouched. -/
def rejectPendingTransaction (now : Nat) (aid : Nat) (db : DB) : DB :=
  setApprovalDecision db aid false now

end RecurrenceService

/-- State reached by a storage-effecting call, whether it returned or
threw (a thrown error leaves behind all writes already performed). -/
def runState (x : Except (String × DB) DB) : DB :=
  match x with
  | Except.ok db => db
  | Except.error (_, db) => db

/-- Well-formedness of a rule, following the schema constraints of the
recurrent_transactions table: valid dates, end_date at or after
start_date, day_of_week 0..6 present for weekly rules, day_of_month 1..31
present for monthly rules. -/
def WfRule (r : RecurrentTransaction) : Prop :=
  ValidDate r.start_date ∧
  (∀ e, r.end_date = some e → ValidDate e ∧ toOrdinal r.start_date ≤ toOrdinal e) ∧
  (r.frequency = Frequency.weekly → ∃ w, r.day_of_week = some w ∧ w < 7) ∧
  (r.frequency = Frequency.monthly → ∃ t, r.day_of_month = some t ∧ 1 ≤ t ∧ t ≤ 31)

/-- Truth of the ok-ness of a storage-effecting call. -/
def okB (x : Except (String × DB) DB) : Bool :=
  match x with
  | Except.ok _ => true
  | Except.error _ => false

/-! Concrete fixtures used to instantiate the claims. -/

/-- Monthly day-31 rule starting 2024-01-01 (the rule of the C1 scenario). -/
def c1rule : RecurrentTransaction :=
  { id := 1, user_id := 7, category_id := some 3, amount := 100, description := none,
    type := TxnKind.expense, frequency := Frequency.monthly, day_of_week := none,
    day_of_month := some 31, requires_approval := false, is_active := true,
    start_date := ⟨2024, 1, 1⟩, end_date := none, last_generated_date := none }

/-- Daily rule whose end date 2024-01-05 lies before the probed current dates. -/
def c2rule : RecurrentTransaction :=
  { id := 2, user_id := 7, category_id := some 3, amount := 100, description := none,
    type := TxnKind.expense, frequency := Frequency.daily, day_of_week := none,
    day_of_month := none, requires_approval := false, is_active := true,
    start_date := ⟨2024, 1, 1⟩, end_date := some ⟨2024, 1, 5⟩, last_generated_date := none }

/-- Daily unbounded rule. -/
def c9rule : RecurrentTransaction :=
  { id := 9, user_id := 7, category_id := some 3, amount := 100, description := none,
    type := TxnKind.expense, frequency := Frequency.daily, day_of_week := none,
    day_of_month := none, requires_approval := false, is_active := true,
    start_date := ⟨2024, 1, 1⟩, end_date := none, last_generated_date := none }

/-- Daily rule whose marker was stamped on 2024-01-03. -/
def c6lgRule : RecurrentTransaction :=
  { c9rule with last_generated_date := some ⟨2024, 1, 3⟩ }

/-- Approval-required monthly rule owning the pending approval below. -/
def c3rule : RecurrentTransaction :=
  { id := 3, user_id := 7, category_id := some 2, amount := 50, description := some "gym",
    type := TxnKind.expense, frequency := Frequency.monthly, day_of_week := none,
    day_of_month := some 15, requires_approval := true, is_active := true,
    start_date := ⟨2024, 1, 1⟩, end_date := none, last_generated_date := none }

/-- Pending approval of c3rule for 2024-01-15, still undecided. -/
def c3approval : PendingApproval :=
  { id := 1, user_id := 7, recurrent_transaction_id := 3, scheduled_date := ⟨2024, 1, 15⟩,
    is_approved := none, approved_at := none }

def c3db : DB :=
  { rules := [c3rule], transactions := [], approvals := [c3approval], nextApprovalId := 2 }

/-- Auto-approve daily rule, due on any date from 2024-01-01 on. -/
def c4rule1 : RecurrentTransaction :=
  { id := 1, user_id := 7, category_id := some 3, amount := 10, description := none,
    type := TxnKind.expense, frequency := Frequency.daily, day_of_week := none,
    day_of_month := none, requires_approval := false, is_active := true,
    start_date := ⟨2024, 1, 1⟩, end_date := none, last_generated_date := none }

def c4rule2 : RecurrentTransaction :=
  { c4rule1 with id := 2 }

def c4db : DB :=
  { rules := [c4rule1, c4rule2], transactions := [], approvals := [], nextApprovalId := 1 }

/-- Faults making the transaction insert of rule 1 fail while rule 2 is healthy. -/
def c4faults : Nat → StorageFaults :=
  fun rid => if rid = 1 then ⟨false, false, true, false⟩ else noFaults

/-- Approval-required daily rule. -/
def c7rule : RecurrentTransaction :=
  { id := 5, user_id := 7, category_id := some 3, amount := 20, description := none,
    type := TxnKind.income, frequency := Frequency.daily, day_of_week := none,
    day_of_month := none, requires_approval := true, is_active := true,
    start_date := ⟨2024, 1, 1⟩, end_date := none, last_generated_date := none }

def c7db : DB :=
  { rules := [c7rule], transactions := [], approvals := [], nextApprovalId := 1 }

/-- Faults making the pending-approval existence query fail. -/
def c10faults : StorageFaults :=
  ⟨true, false, false, false⟩

/-- Store state after approvePendingTransaction succeeds on an approval
record appr whose rule is rule: the transaction dated scheduled_date is
appended, the approval row is marked approved, the rule marker is set. -/
def approvedStore (uid now aid : Nat) (db : DB) (appr : PendingApproval)
    (rule : RecurrentTransaction) : DB :=
  RecurrenceService.updateRuleMarker
    (RecurrenceService.setApprovalDecision
      (RecurrenceService.insertTransaction db
        { user_id := uid, category_id := rule.category_id, amount := rule.amount,
          description := rule.description, date := appr.scheduled_date, type := rule.type,
          recurrent_transaction_id := some rule.id }) aid true now)
    rule.id appr.scheduled_date

theorem daysInMonth_pos (y m : Nat) : 1 ≤ daysInMonth y m := by
  unfold daysInMonth leapAdjust
  split <;> omega

theorem daysInMonth_le_31 (y m : Nat) : daysInMonth y m ≤ 31 := by
  unfold daysInMonth leapAdjust
  split
  all_goals first | omega | (split <;> omega)

theorem toOrdinal_mk (y m dd : Nat) :
    toOrdinal ⟨y, m, dd⟩ = daysBeforeYear (y - 1) + daysBeforeMonth y m + dd := rfl

theorem daysBeforeMonth_succ (y m : Nat) (h1 : 1 ≤ m) (h2 : m ≤ 12) :
    daysBeforeMonth y (m + 1) = daysBeforeMonth y m + daysInMonth y m := by
  interval_cases m <;> simp [daysBeforeMonth, daysInMonth] <;> omega

theorem daysBeforeYear_succ (y : Nat) :
    daysBeforeYear (y + 1) = daysBeforeYear y + 365 + leapAdjust (y + 1) := by
  have d4 : (y + 1) / 4 = if (y + 1) % 4 = 0 then y / 4 + 1 else y / 4 := by
    split <;> omega
  have d100 : (y + 1) / 100 = if (y + 1) % 100 = 0 then y / 100 + 1 else y / 100 := by
    split <;> omega
  have d400 : (y + 1) / 400 = if (y + 1) % 400 = 0 then y / 400 + 1 else y / 400 := by
    split <;> omega
  have hle : y / 100 ≤ y / 4 := Nat.div_le_div_left (by omega) (by omega)
  unfold daysBeforeYear leapAdjust isLeap
  rw [d4, d100, d400]
  simp only [Bool.or_eq_true, Bool.and_eq_true, beq_iff_eq, bne_iff_ne, ne_eq]
  split_ifs <;> omega

theorem toOrdinal_succDate (d : Date) (h : ValidDate d) :
    toOrdinal (succDate d) = toOrdinal d + 1 := by
  obtain ⟨hy, hm1, hm2, hd1, hd2⟩ := h
  have hord : toOrdinal d = daysBeforeYear (d.year - 1) + daysBeforeMonth d.year d.month + d.day :=
    rfl
  unfold succDate
  split_ifs with hlt hmon
  · rw [toOrdinal_mk, hord]
    omega
  · rw [toOrdinal_mk, hord]
    have hstep := daysBeforeMonth_succ d.year d.month hm1 hm2
    omega
  · rw [toOrdinal_mk, hord]
    have hmon12 : d.month = 12 := by omega
    rw [hmon12] at hd2 ⊢
    rw [hmon12] at hlt
    have h12v : daysBeforeMonth d.year 12 = 334 + leapAdjust d.year := rfl
    have h1v : daysBeforeMonth (d.year + 1) 1 = 0 := rfl
    have hdec : daysInMonth d.year 12 = 31 := rfl
    have hyr := daysBeforeYear_succ (d.year - 1)
    have hy1 : d.year - 1 + 1 = d.year := by omega
    rw [hy1] at hyr
    simp only [Nat.add_sub_cancel]
    omega

theorem validDate_mk (y m dd : Nat) :
    ValidDate ⟨y, m, dd⟩ ↔ 1 ≤ y ∧ 1 ≤ m ∧ m ≤ 12 ∧ 1 ≤ dd ∧ dd ≤ daysInMonth y m :=
  Iff.rfl

theorem validDate_succDate (d : Date) (h : ValidDate d) : ValidDate (succDate d) := by
  obtain ⟨hy, hm1, hm2, hd1, hd2⟩ := h
  unfold succDate
  split_ifs with hlt hmon
  · exact (validDate_mk _ _ _).mpr ⟨hy, hm1, hm2, by omega, hlt⟩
  · exact (validDate_mk _ _ _).mpr ⟨hy, by omega, by omega, by omega, daysInMonth_pos _ _⟩
  · exact (validDate_mk _ _ _).mpr ⟨by omega, by omega, by omega, by omega, daysInMonth_pos _ _⟩

theorem toOrdinal_addDays (d : Date) (n : Nat) (h : ValidDate d) :
    toOrdinal (addDays d n) = toOrdinal d + n ∧ ValidDate (addDays d n) := by
  induction n with
  | zero => exact ⟨rfl, h⟩
  | succ k ih =>
    refine ⟨?_, validDate_succDate _ ih.2⟩
    show toOrdinal (succDate (addDays d k)) = _
    rw [toOrdinal_succDate _ ih.2, ih.1]
    omega

theorem getDay_lt_7 (d : Date) : getDay d < 7 :=
  Nat.mod_lt _ (by omega)

theorem getDay_succDate (d : Date) (h : ValidDate d) :
    getDay (succDate d) = (getDay d + 1) % 7 := by
  unfold getDay
  rw [toOrdinal_succDate d h]
  omega

namespace RecurrenceService

theorem weeklyAdvance_spec (fuel : Nat) :
    ∀ (x : Date) (w : Nat), ValidDate x → w < 7 →
      (w + 7 - getDay x) % 7 < fuel →
      ValidDate (weeklyAdvance fuel x w) ∧ getDay (weeklyAdvance fuel x w) = w ∧
        toOrdinal (weeklyAdvance fuel x w) = toOrdinal x + (w + 7 - getDay x) % 7 := by
  induction fuel with
  | zero => exact fun x w _ _ hk => absurd hk (by omega)
  | succ f ih =>
    intro x w hx hw hk
    by_cases hg : getDay x = w
    · have hunf : weeklyAdvance (f + 1) x w = x := by
        simp [weeklyAdvance, hg]
      rw [hunf, hg]
      exact ⟨hx, rfl, by omega⟩
    · have hxs : ValidDate (succDate x) := validDate_succDate x hx
      have hgs : getDay (succDate x) = (getDay x + 1) % 7 := getDay_succDate x hx
      have hglt : getDay x < 7 := getDay_lt_7 x
      have hk2 : (w + 7 - getDay (succDate x)) % 7 < f := by
        rw [hgs]; omega
      obtain ⟨v1, v2, v3⟩ := ih (succDate x) w hxs hw hk2
      have hunf : weeklyAdvance (f + 1) x w = weeklyAdvance f (succDate x) w := by
        simp [weeklyAdvance, hg]
      rw [hunf]
      refine ⟨v1, v2, ?_⟩
      rw [v3, toOrdinal_succDate x hx, hgs]
      omega

end RecurrenceService

theorem addMonths1_next (c : Date) (hc : ValidDate c) (dd : Nat) (hdd : 1 ≤ dd) :
    toOrdinal c < toOrdinal ⟨(addMonths1 c).year, (addMonths1 c).month, dd⟩ ∧
      1 ≤ (addMonths1 c).year ∧ 1 ≤ (addMonths1 c).month ∧ (addMonths1 c).month ≤ 12 := by
  obtain ⟨hy, hm1, hm2, hd1, hd2⟩ := hc
  have hord : toOrdinal c = daysBeforeYear (c.year - 1) + daysBeforeMonth c.year c.month + c.day :=
    rfl
  unfold addMonths1
  split_ifs with h12
  · simp only [toOrdinal_mk, Nat.add_sub_cancel]
    have hbm : daysBeforeMonth c.year c.month = 334 + leapAdjust c.year := by
      rw [h12]; rfl
    have hdim : daysInMonth c.year c.month = 31 := by
      rw [h12]; rfl
    have h1v : daysBeforeMonth (c.year + 1) 1 = 0 := rfl
    have hyr := daysBeforeYear_succ (c.year - 1)
    have hy1 : c.year - 1 + 1 = c.year := by omega
    rw [hy1] at hyr
    omega
  · simp only [toOrdinal_mk]
    have hm12 : c.month ≤ 11 := by omega
    have hstep := daysBeforeMonth_succ c.year c.month hm1 hm2
    have hdp := daysInMonth_pos c.year c.month
    omega

namespace RecurrenceService

/-- A generated next occurrence of a well-formed rule is a valid date,
is strictly later than the cursor, and satisfies the frequency matcher. -/
theorem getNextOccurrence_spec (r : RecurrentTransaction) (c : Date)
    (hr : WfRule r) (hc : ValidDate c) :
    ValidDate (getNextOccurrence r c) ∧ toOrdinal c < toOrdinal (getNextOccurrence r c) ∧
      matchesFrequency r (getNextOccurrence r c) = true := by
  obtain ⟨hstart, hend, hwk, hmon⟩ := hr
  cases hf : r.frequency with
  | daily =>
    have had := toOrdinal_addDays c 1 hc
    have hunf : getNextOccurrence r c = addDays c 1 := by
      simp [getNextOccurrence, hf]
    rw [hunf]
    exact ⟨had.2, by omega, by simp [matchesFrequency, hf]⟩
  | weekly =>
    obtain ⟨w, hdw, hw7⟩ := hwk hf
    have had := toOrdinal_addDays c 1 hc
    have hk : (w + 7 - getDay (addDays c 1)) % 7 < 7 := by
      have := getDay_lt_7 (addDays c 1)
      omega
    obtain ⟨v1, v2, v3⟩ := weeklyAdvance_spec 7 (addDays c 1) w had.2 hw7 hk
    have hunf : getNextOccurrence r c = weeklyAdvance 7 (addDays c 1) w := by
      simp [getNextOccurrence, hf, hdw]
    rw [hunf]
    refine ⟨v1, ?_, ?_⟩
    · rw [v3, had.1]
      omega
    · simp [matchesFrequency, hf, hdw, v2]
  | monthly =>
    obtain ⟨t, hdm, ht1, ht31⟩ := hmon hf
    have hunf : getNextOccurrence r c =
        { addMonths1 c with day := min t (lastDayOfMonth (addMonths1 c)) } := by
      simp [getNextOccurrence, hf, hdm]
    have hdp := daysInMonth_pos (addMonths1 c).year (addMonths1 c).month
    have hone : 1 ≤ min t (lastDayOfMonth (addMonths1 c)) := by
      unfold lastDayOfMonth
      omega
    obtain ⟨hlt, hy1, hm1, hm2⟩ :=
      addMonths1_next c hc (min t (lastDayOfMonth (addMonths1 c))) hone
    rw [hunf]
    refine ⟨?_, hlt, ?_⟩
    · refine (validDate_mk _ _ _).mpr ⟨hy1, hm1, hm2, hone, ?_⟩
      unfold lastDayOfMonth
      omega
    · simp [matchesFrequency, hf, hdm, getDate, lastDayOfMonth]

/-- Invariant of the generation loop: starting from a valid cursor, every
emitted date is valid, strictly later than the cursor, satisfies the
matcher, and is at or before end_date when one is set; the emitted list is
strictly increasing and no longer than the fuel. -/
theorem genLoop_spec (r : RecurrentTransaction) (hr : WfRule r) (fuel : Nat) :
    ∀ (c : Date), ValidDate c →
      (∀ d ∈ genLoop r fuel c,
        ValidDate d ∧ toOrdinal c < toOrdinal d ∧ matchesFrequency r d = true ∧
          (∀ e, r.end_date = some e → toOrdinal d ≤ toOrdinal e)) ∧
      List.Pairwise (fun a b => toOrdinal a < toOrdinal b) (genLoop r fuel c) ∧
      (genLoop r fuel c).length ≤ fuel := by
  induction fuel with
  | zero =>
    intro c _
    simp [genLoop]
  | succ f ih =>
    intro c hc
    obtain ⟨n1, n2, n3⟩ := getNextOccurrence_spec r c hr hc
    cases he : r.end_date with
    | some e =>
      by_cases hafter : isAfter (getNextOccurrence r c) e = true
      · have hunf : genLoop r (f + 1) c = [] := by
          simp [genLoop, he, hafter]
        simp [hunf]
      · have hb : isAfter (getNextOccurrence r c) e = false :=
          Bool.not_eq_true _ ▸ by simpa using hafter
        have hunf : genLoop r (f + 1) c =
            getNextOccurrence r c :: genLoop r f (getNextOccurrence r c) := by
          simp [genLoop, he, hb]
        obtain ⟨ih1, ih2, ih3⟩ := ih (getNextOccurrence r c) n1
        rw [hunf]
        refine ⟨?_, ?_, ?_⟩
        · intro d hd
          rcases List.mem_cons.mp hd with h | h
          · subst h
            refine ⟨n1, n2, n3, ?_⟩
            intro ee hee
            have h2 : e = ee := by injection hee
            subst h2
            simp [isAfter] at hb
            omega
          · obtain ⟨hv, hlt, hm, hle⟩ := ih1 d h
            refine ⟨hv, lt_trans n2 hlt, hm, ?_⟩
            intro ee hee
            have h2 : e = ee := by injection hee
            subst h2
            exact hle _ he
        · exact List.pairwise_cons.mpr ⟨fun d hd => (ih1 d hd).2.1, ih2⟩
        · simp only [List.length_cons]
          omega
    | none =>
      have hunf : genLoop r (f + 1) c =
          getNextOccurrence r c :: genLoop r f (getNextOccurrence r c) := by
        simp [genLoop, he]
      obtain ⟨ih1, ih2, ih3⟩ := ih (getNextOccurrence r c) n1
      rw [hunf]
      refine ⟨?_, ?_, ?_⟩
      · intro d hd
        rcases List.mem_cons.mp hd with h | h
        · subst h
          exact ⟨n1, n2, n3, fun ee hee => nomatch hee⟩
        · obtain ⟨hv, hlt, hm, hle⟩ := ih1 d h
          exact ⟨hv, lt_trans n2 hlt, hm, fun ee hee => nomatch hee⟩
      · exact List.pairwise_cons.mpr ⟨fun d hd => (ih1 d hd).2.1, ih2⟩
      · simp only [List.length_cons]
        omega

end RecurrenceService

open RecurrenceService

/-- C1 counterexample: for the monthly day-31 rule starting 2024-01-01,
calculateNextOccurrences with count 2 and current date 2024-01-01 does not
return the sequence [2024-01-31, 2024-02-29] stated by the claim. -/
theorem c1_monthly_day31_counterexample :
    calculateNextOccurrences c1rule 2 ⟨2024, 1, 1⟩ ≠
      [⟨2024, 1, 31⟩, ⟨2024, 2, 29⟩] := by
  decide

/-- C1 (amended): for the rule (frequency monthly, day_of_month 31,
start_date 2024-01-01), calling the occurrence generator for 2 occurrences
with current date 2024-01-01 returns exactly [2024-02-29, 2024-03-31]: the
monthly advance always jumps to the following month, so the day-31
occurrence of the starting month itself (2024-01-31) is skipped. -/
theorem c1_monthly_day31_scenario :
    calculateNextOccurrences c1rule 2 ⟨2024, 1, 1⟩ =
      [⟨2024, 2, 29⟩, ⟨2024, 3, 31⟩] := by
  decide

/-- C5 counterexample: c1rule is a monthly rule with day_of_month 31, 2024
is a leap year, and the frequency matcher returns true (not false, as the
claim states) on 2024-02-29. -/
theorem c5_matcher_counterexample :
    c1rule.frequency = Frequency.monthly ∧ c1rule.day_of_month = some 31 ∧
      isLeap 2024 = true ∧ matchesFrequency c1rule ⟨2024, 2, 29⟩ = true := by
  decide

/-- C5 (amended): for every rule with frequency monthly and day_of_month
31, the frequency matcher returns true on February 28 of a non-leap year,
true on February 29 of a leap year, and false on February 28 of a leap
year: the clamped day is the last day of February of that year. -/
theorem c5_matcher_feb (r : RecurrentTransaction) (hf : r.frequency = Frequency.monthly)
    (hd : r.day_of_month = some 31) (y : Nat) :
    (isLeap y = false → matchesFrequency r ⟨y, 2, 28⟩ = true) ∧
    (isLeap y = true → matchesFrequency r ⟨y, 2, 29⟩ = true) ∧
    (isLeap y = true → matchesFrequency r ⟨y, 2, 28⟩ = false) := by
  refine ⟨?_, ?_, ?_⟩ <;> intro h <;>
    simp [matchesFrequency, hf, hd, getDate, lastDayOfMonth, daysInMonth, leapAdjust, h]

/-- C5 witness at the concrete rule c1rule and the years 2023 and 2024. -/
theorem c5_matcher_feb_witness :
    matchesFrequency c1rule ⟨2023, 2, 28⟩ = true ∧
      matchesFrequency c1rule ⟨2024, 2, 29⟩ = true ∧
      matchesFrequency c1rule ⟨2024, 2, 28⟩ = false :=
  ⟨(c5_matcher_feb c1rule rfl rfl 2023).1 (by decide),
   (c5_matcher_feb c1rule rfl rfl 2024).2.1 (by decide),
   (c5_matcher_feb c1rule rfl rfl 2024).2.2 (by decide)⟩

/-- C10: on the approval path, when the query checking for an existing
pending approval returns a storage error, generateTransaction completes
without raising any error and without inserting anything: the store is
returned unchanged and no error is surfaced or retried. -/
theorem c10_check_error_swallowed (uid : Nat) (today : Date) (f : StorageFaults)
    (r : RecurrentTransaction) (db : DB)
    (hreq : r.requires_approval = true) (hchk : f.approvalCheckError = true) :
    generateTransaction uid today f r db = Except.ok db := by
  simp [generateTransaction, hreq, hchk]

/-- C10 witness at the approval-required rule c7rule with a failing
existence query. -/
theorem c10_check_error_swallowed_witness :
    generateTransaction 7 ⟨2024, 1, 10⟩ c10faults c7rule c7db = Except.ok c7db :=
  c10_check_error_swallowed 7 ⟨2024, 1, 10⟩ c10faults c7rule c7db rfl rfl

/-- C4 counterexample: with rule 1 hitting a storage error on its
transaction insert, the batch over [rule 1, rule 2] returns that error and
leaves no transaction at all, although rule 2 was due and its processing
alone would have succeeded: the failure is not isolated and rule 2 is not
processed. -/
theorem c4_batch_counterexample :
    okB (processRecurrences 7 ⟨2024, 1, 10⟩ c4faults c4db) = false ∧
      (runState (processRecurrences 7 ⟨2024, 1, 10⟩ c4faults c4db)).transactions.length = 0 ∧
      shouldGenerateToday c4rule2 ⟨2024, 1, 10⟩ = true ∧
      okB (generateTransaction 7 ⟨2024, 1, 10⟩ (c4faults 2) c4rule2 c4db) = true := by
  decide

/-- C4 (amended): an exception raised while processing one rule aborts the
batch: the per-rule loop returns that error unchanged, regardless of the
rules still pending behind the failing one, so they are not processed and
no aggregation of per-rule failures takes place. -/
theorem c4_batch_aborts (uid : Nat) (today : Date) (faults : Nat → StorageFaults)
    (r : RecurrentTransaction) (rest : List RecurrentTransaction) (db : DB)
    (e : String × DB)
    (hdue : shouldGenerateToday r today = true)
    (herr : generateTransaction uid today (faults r.id) r db = Except.error e) :
    processLoop uid today faults (r :: rest) db = Except.error e := by
  simp [processLoop, hdue, herr]

/-- C4 witness at the two-rule fixture with the insert of rule 1 failing. -/
theorem c4_batch_aborts_witness :
    processLoop 7 ⟨2024, 1, 10⟩ c4faults [c4rule1, c4rule2] c4db =
      Except.error ("insert transaction failed", c4db) :=
  c4_batch_aborts 7 ⟨2024, 1, 10⟩ c4faults c4rule1 [c4rule2] c4db
    ("insert transaction failed", c4db) (by decide) rfl

/-- C8: rejecting a pending approval leaves the rules (and hence every
last_generated_date marker) unchanged, and the approval path of
generateTransaction (the path that creates a PendingApproval) leaves the
rules unchanged whatever the storage outcome, for every rule and store. -/
theorem c8_marker_frame :
    (∀ now aid db, (rejectPendingTransaction now aid db).rules = db.rules) ∧
    (∀ uid today f r db, r.requires_approval = true →
      (runState (generateTransaction uid today f r db)).rules = db.rules) := by
  constructor
  · intro now aid db
    rfl
  · intro uid today f r db hreq
    simp only [generateTransaction, hreq, if_true]
    split_ifs <;> rfl

/-- C8 witness: a concrete rejection and a concrete approval-path
generation both leave the rules untouched. -/
theorem c8_marker_frame_witness :
    (rejectPendingTransaction 100 1 c3db).rules = c3db.rules ∧
      (runState (generateTransaction 7 ⟨2024, 1, 10⟩ noFaults c7rule c7db)).rules =
        c7db.rules :=
  ⟨c8_marker_frame.1 100 1 c3db,
   c8_marker_frame.2 7 ⟨2024, 1, 10⟩ noFaults c7rule c7db rfl⟩

/-- C6: the due check of the orchestrator returns false when today is
before start_date, false when last_generated_date equals today, false when
end_date is set and today is after it, and otherwise equals the frequency
matcher; in particular it is false whenever the marker equals today. -/
theorem c6_due_check (r : RecurrentTransaction) (today : Date) :
    (isBefore today r.start_date = true → shouldGenerateToday r today = false) ∧
    (∀ lg, r.last_generated_date = some lg → isSameDay lg today = true →
      shouldGenerateToday r today = false) ∧
    (∀ e, r.end_date = some e → isAfter today e = true →
      shouldGenerateToday r today = false) ∧
    (isBefore today r.start_date = false →
      (∀ lg, r.last_generated_date = some lg → isSameDay lg today = false) →
      (∀ e, r.end_date = some e → isAfter today e = false) →
      shouldGenerateToday r today = matchesFrequency r today) ∧
    (r.last_generated_date = some today → shouldGenerateToday r today = false) := by
  refine ⟨?_, ?_, ?_, ?_, ?_⟩
  · intro h
    simp [shouldGenerateToday, h]
  · intro lg hlg hsame
    simp [shouldGenerateToday, hlg, hsame]
  · intro e he haft
    simp [shouldGenerateToday, he, haft]
  · intro h1 h2 h3
    cases hlg : r.last_generated_date with
    | none =>
      cases hend : r.end_date with
      | none => simp [shouldGenerateToday, h1, hlg, hend]
      | some e => simp [shouldGenerateToday, h1, hlg, hend, h3 e hend]
    | some lg =>
      cases hend : r.end_date with
      | none => simp [shouldGenerateToday, h1, hlg, hend, h2 lg hlg]
      | some e => simp [shouldGenerateToday, h1, hlg, hend, h2 lg hlg, h3 e hend]
  · intro hlg
    have hsame : isSameDay today today = true := by simp [isSameDay]
    simp [shouldGenerateToday, hlg, hsame]

/-- C6 witness exercising all five parts of the due check on concrete
rules and dates. -/
theorem c6_due_check_witness :
    shouldGenerateToday c2rule ⟨2023, 12, 31⟩ = false ∧
      shouldGenerateToday c6lgRule ⟨2024, 1, 3⟩ = false ∧
      shouldGenerateToday c2rule ⟨2024, 1, 10⟩ = false ∧
      shouldGenerateToday c2rule ⟨2024, 1, 3⟩ = matchesFrequency c2rule ⟨2024, 1, 3⟩ ∧
      shouldGenerateToday c6lgRule ⟨2024, 1, 3⟩ = false :=
  ⟨(c6_due_check c2rule ⟨2023, 12, 31⟩).1 (by decide),
   (c6_due_check c6lgRule ⟨2024, 1, 3⟩).2.1 ⟨2024, 1, 3⟩ rfl (by decide),
   (c6_due_check c2rule ⟨2024, 1, 10⟩).2.2.1 ⟨2024, 1, 5⟩ rfl (by decide),
   (c6_due_check c2rule ⟨2024, 1, 3⟩).2.2.2.1 (by decide)
     (fun lg hlg => nomatch hlg)
     (fun e he => by injection he with h; rw [← h]; decide),
   (c6_due_check c6lgRule ⟨2024, 1, 3⟩).2.2.2.2 rfl⟩

/-- C9 counterexample: for the daily rule c9rule and count 0, the
generator returns a one-element sequence, violating the claimed length
bound of at most n. -/
theorem c9_generator_counterexample :
    calculateNextOccurrences c9rule 0 ⟨2024, 1, 10⟩ = [⟨2024, 1, 10⟩] ∧
      ¬ ((calculateNextOccurrences c9rule 0 ⟨2024, 1, 10⟩).length ≤ 0) := by
  decide

/-- C9 (amended): for every well-formed rule, count n and valid current
date, the generator returns a strictly increasing, duplicate-free sequence
whose elements all satisfy the frequency matcher, of length at most
max n 1: the day-0 occurrence is emitted before the count is consulted, so
for n = 0 one date may still be returned. -/
theorem c9_generator_props (r : RecurrentTransaction) (n : Nat) (today : Date)
    (hr : WfRule r) (ht : ValidDate today) :
    List.Pairwise (fun a b => toOrdinal a < toOrdinal b)
        (calculateNextOccurrences r n today) ∧
      (calculateNextOccurrences r n today).Nodup ∧
      (∀ d ∈ calculateNextOccurrences r n today, matchesFrequency r d = true) ∧
      (calculateNextOccurrences r n today).length ≤ max n 1 := by
  have hcv : ValidDate (if isBefore today r.start_date then r.start_date else today) := by
    split_ifs
    · exact hr.1
    · exact ht
  by_cases hm :
      matchesFrequency r (if isBefore today r.start_date then r.start_date else today) = true
  · have hres : calculateNextOccurrences r n today =
        (if isBefore today r.start_date then r.start_date else today) ::
          genLoop r (n - 1) (if isBefore today r.start_date then r.start_date else today) := by
      simp [calculateNextOccurrences, hm]
    obtain ⟨g1, g2, g3⟩ := genLoop_spec r hr (n - 1) _ hcv
    rw [hres]
    have hpw : List.Pairwise (fun a b => toOrdinal a < toOrdinal b)
        ((if isBefore today r.start_date then r.start_date else today) ::
          genLoop r (n - 1) (if isBefore today r.start_date then r.start_date else today)) :=
      List.pairwise_cons.mpr ⟨fun d hd => (g1 d hd).2.1, g2⟩
    refine ⟨hpw, ?_, ?_, ?_⟩
    · exact hpw.imp fun hab heq => absurd (heq ▸ hab) (lt_irrefl _)
    · intro d hd
      rcases List.mem_cons.mp hd with h | h
      · subst h
        exact hm
      · exact (g1 d h).2.2.1
    · simp only [List.length_cons]
      omega
  · have hres : calculateNextOccurrences r n today =
        genLoop r n (if isBefore today r.start_date then r.start_date else today) := by
      simp [calculateNextOccurrences, hm]
    obtain ⟨g1, g2, g3⟩ := genLoop_spec r hr n _ hcv
    rw [hres]
    refine ⟨g2, ?_, fun d hd => (g1 d hd).2.2.1, by omega⟩
    exact g2.imp fun hab heq => absurd (heq ▸ hab) (lt_irrefl _)

/-- C9 witness at the daily rule c9rule, count 3, current date
2024-01-10. -/
theorem c9_generator_props_witness :
    List.Pairwise (fun a b => toOrdinal a < toOrdinal b)
        (calculateNextOccurrences c9rule 3 ⟨2024, 1, 10⟩) ∧
      (calculateNextOccurrences c9rule 3 ⟨2024, 1, 10⟩).Nodup ∧
      (∀ d ∈ calculateNextOccurrences c9rule 3 ⟨2024, 1, 10⟩,
        matchesFrequency c9rule d = true) ∧
      (calculateNextOccurrences c9rule 3 ⟨2024, 1, 10⟩).length ≤ max 3 1 :=
  c9_generator_props c9rule 3 ⟨2024, 1, 10⟩
    (by
      refine ⟨by decide, ?_, ?_, ?_⟩
      · intro e he
        nomatch he
      · intro h
        nomatch h
      · intro h
        nomatch h)
    (by decide)

/-- C2 counterexample: for the daily rule with end_date 2024-01-05 and
current date 2024-01-10 (strictly past the end date), the generator
returns the nonempty sequence [2024-01-10], whose element is strictly
after the end date: both the empty-sequence part and the upper-bound part
of the claim fail on the day-0 emission. -/
theorem c2_range_counterexample :
    c2rule.end_date = some ⟨2024, 1, 5⟩ ∧
      isAfter ⟨2024, 1, 10⟩ ⟨2024, 1, 5⟩ = true ∧
      calculateNextOccurrences c2rule 2 ⟨2024, 1, 10⟩ = [⟨2024, 1, 10⟩] := by
  decide

/-- C2 (amended): for every well-formed rule, count and valid current
date, no returned date is strictly before start_date, and every returned
date other than the first is at or before end_date when one is set; when
end_date lies strictly before the current date the sequence is [today] if
today itself satisfies the matcher (the day-0 emission skips the end-date
check) and empty otherwise. -/
theorem c2_range_bounds (r : RecurrentTransaction) (n : Nat) (today : Date)
    (hr : WfRule r) (ht : ValidDate today) :
    (∀ d ∈ calculateNextOccurrences r n today, isBefore d r.start_date = false) ∧
    (∀ e, r.end_date = some e →
      ∀ d ∈ (calculateNextOccurrences r n today).tail, isAfter d e = false) ∧
    (∀ e, r.end_date = some e → isAfter today e = true →
      calculateNextOccurrences r n today =
        if matchesFrequency r today then [today] else []) := by
  set cur := if isBefore today r.start_date then r.start_date else today with hcur
  have hcv : ValidDate cur := by
    rw [hcur]
    split_ifs
    · exact hr.1
    · exact ht
  have hcge : toOrdinal r.start_date ≤ toOrdinal cur := by
    rw [hcur]
    split_ifs with hb
    · exact le_refl _
    · simp only [isBefore, decide_eq_true_eq] at hb
      omega
  have hsplit : calculateNextOccurrences r n today =
      if matchesFrequency r cur then cur :: genLoop r (n - 1) cur else genLoop r n cur := by
    rw [hcur]
    rfl
  refine ⟨?_, ?_, ?_⟩
  · intro d hd
    rw [hsplit] at hd
    by_cases hm : matchesFrequency r cur = true
    · rw [if_pos hm] at hd
      obtain ⟨g1, -, -⟩ := genLoop_spec r hr (n - 1) cur hcv
      rcases List.mem_cons.mp hd with h | h
      · subst h
        simp only [isBefore, decide_eq_false_iff_not, not_lt]
        omega
      · have := (g1 d h).2.1
        simp only [isBefore, decide_eq_false_iff_not, not_lt]
        omega
    · rw [if_neg hm] at hd
      obtain ⟨g1, -, -⟩ := genLoop_spec r hr n cur hcv
      have := (g1 d hd).2.1
      simp only [isBefore, decide_eq_false_iff_not, not_lt]
      omega
  · intro e he d hd
    rw [hsplit] at hd
    by_cases hm : matchesFrequency r cur = true
    · rw [if_pos hm] at hd
      simp only [List.tail_cons] at hd
      obtain ⟨g1, -, -⟩ := genLoop_spec r hr (n - 1) cur hcv
      have := (g1 d hd).2.2.2 e he
      simp only [isAfter, decide_eq_false_iff_not, not_lt]
      omega
    · rw [if_neg hm] at hd
      obtain ⟨g1, -, -⟩ := genLoop_spec r hr n cur hcv
      have hd2 := List.tail_subset _ hd
      have := (g1 d hd2).2.2.2 e he
      simp only [isAfter, decide_eq_false_iff_not, not_lt]
      omega
  · intro e he hpast
    have hse := (hr.2.1 e he).2
    simp only [isAfter, decide_eq_true_eq] at hpast
    have hbf : isBefore today r.start_date = false := by
      simp only [isBefore, decide_eq_false_iff_not, not_lt]
      omega
    have hcurtoday : cur = today := by
      rw [hcur, hbf]
      simp
    have hloopnil : ∀ k, genLoop r k today = [] := by
      intro k
      cases k with
      | zero => rfl
      | succ f =>
        obtain ⟨-, hgt, -⟩ := getNextOccurrence_spec r today hr ht
        have hafter : isAfter (getNextOccurrence r today) e = true := by
          simp only [isAfter, decide_eq_true_eq]
          omega
        simp [genLoop, he, hafter]
    rw [hsplit, hcurtoday]
    by_cases hm : matchesFrequency r today = true
    · rw [if_pos hm, hloopnil (n - 1), if_pos hm]
    · rw [if_neg hm, hloopnil n, if_neg hm]

/-- C2 witness at the daily bounded rule c2rule, count 3, current date
2024-01-10 (past the end date). -/
theorem c2_range_bounds_witness :
    (∀ d ∈ calculateNextOccurrences c2rule 3 ⟨2024, 1, 10⟩,
      isBefore d c2rule.start_date = false) ∧
    (∀ e, c2rule.end_date = some e →
      ∀ d ∈ (calculateNextOccurrences c2rule 3 ⟨2024, 1, 10⟩).tail, isAfter d e = false) ∧
    (∀ e, c2rule.end_date = some e → isAfter ⟨2024, 1, 10⟩ e = true →
      calculateNextOccurrences c2rule 3 ⟨2024, 1, 10⟩ =
        if matchesFrequency c2rule ⟨2024, 1, 10⟩ then [⟨2024, 1, 10⟩] else []) :=
  c2_range_bounds c2rule 3 ⟨2024, 1, 10⟩
    (by
      refine ⟨by decide, ?_, ?_, ?_⟩
      · intro e he
        have h2 : (⟨2024, 1, 5⟩ : Date) = e := by injection he
        subst h2
        exact ⟨by decide, by decide⟩
      · intro h
        nomatch h
      · intro h
        nomatch h)
    (by decide)

/-- C7: for an approval-required active rule due today with no existing
pending approval for (rule, today), one processing tick creates exactly
one pending approval with is_approved null and no transaction, leaving the
rules untouched; running the tick again the same day finds the existing
record (existence is checked before insert) and changes nothing, so at
most one pending approval per (rule, scheduled_date) exists. -/
theorem c7_pending_unique (uid : Nat) (today : Date) (r : RecurrentTransaction) (db : DB)
    (hreq : r.requires_approval = true)
    (hrules : db.rules = [r])
    (hact : r.is_active = true)
    (hdue : shouldGenerateToday r today = true)
    (hnone : countApprovalsFor db r.id today = 0) :
    ∃ db1,
      processRecurrences uid today (fun _ => noFaults) db = Except.ok db1 ∧
      db1.approvals = db.approvals ++
        [{ id := db.nextApprovalId, user_id := uid, recurrent_transaction_id := r.id,
           scheduled_date := today, is_approved := none, approved_at := none }] ∧
      db1.transactions = db.transactions ∧
      db1.rules = db.rules ∧
      countApprovalsFor db1 r.id today = 1 ∧
      processRecurrences uid today (fun _ => noFaults) db1 = Except.ok db1 := by
  refine ⟨insertPendingApproval db
    { id := db.nextApprovalId, user_id := uid, recurrent_transaction_id := r.id,
      scheduled_date := today, is_approved := none, approved_at := none },
    ?_, rfl, rfl, rfl, ?_, ?_⟩
  · unfold processRecurrences
    rw [hrules]
    simp [List.filter, hact, processLoop, hdue, generateTransaction, hreq, noFaults, hnone]
  · have hstep : countApprovalsFor (insertPendingApproval db
        { id := db.nextApprovalId, user_id := uid, recurrent_transaction_id := r.id,
          scheduled_date := today, is_approved := none, approved_at := none }) r.id today =
        countApprovalsFor db r.id today + 1 := by
      simp [countApprovalsFor, insertPendingApproval, List.countP_append, List.countP_cons]
    rw [hstep, hnone]
  · have hcount1 : countApprovalsFor (insertPendingApproval db
        { id := db.nextApprovalId, user_id := uid, recurrent_transaction_id := r.id,
          scheduled_date := today, is_approved := none, approved_at := none }) r.id today =
        countApprovalsFor db r.id today + 1 := by
      simp [countApprovalsFor, insertPendingApproval, List.countP_append, List.countP_cons]
    unfold processRecurrences
    have hr2 : (insertPendingApproval db
        { id := db.nextApprovalId, user_id := uid, recurrent_transaction_id := r.id,
          scheduled_date := today, is_approved := none, approved_at := none }).rules = [r] := by
      rw [← hrules]
      rfl
    rw [hr2]
    simp [List.filter, hact, processLoop, hdue, generateTransaction, hreq, noFaults,
      hcount1, hnone]

/-- C7 witness at the approval-required daily rule c7rule and the empty
store c7db, current date 2024-01-10. -/
theorem c7_pending_unique_witness :
    ∃ db1,
      processRecurrences 7 ⟨2024, 1, 10⟩ (fun _ => noFaults) c7db = Except.ok db1 ∧
      db1.approvals = c7db.approvals ++
        [{ id := c7db.nextApprovalId, user_id := 7, recurrent_transaction_id := c7rule.id,
           scheduled_date := ⟨2024, 1, 10⟩, is_approved := none, approved_at := none }] ∧
      db1.transactions = c7db.transactions ∧
      db1.rules = c7db.rules ∧
      countApprovalsFor db1 c7rule.id ⟨2024, 1, 10⟩ = 1 ∧
      processRecurrences 7 ⟨2024, 1, 10⟩ (fun _ => noFaults) db1 = Except.ok db1 :=
  c7_pending_unique 7 ⟨2024, 1, 10⟩ c7rule c7db rfl rfl rfl (by decide) (by decide)

theorem find?_map_id_preserved {α : Type} (l : List α) (p : α → Bool) (f : α → α)
    (hf : ∀ a, p (f a) = p a) :
    (l.map f).find? p = (l.find? p).map f := by
  induction l with
  | nil => rfl
  | cons x xs ih =>
    by_cases hp : p x = true
    · have hpf : p (f x) = true := by rw [hf]; exact hp
      rw [List.map_cons, List.find?_cons_of_pos _ hpf, List.find?_cons_of_pos _ hp]
      rfl
    · have hpf : ¬ p (f x) = true := by rw [hf]; exact hp
      rw [List.map_cons, List.find?_cons_of_neg _ hpf, List.find?_cons_of_neg _ hp, ih]

theorem findApproval_approvedStore (uid now aid : Nat) (db : DB) (appr : PendingApproval)
    (rule : RecurrentTransaction) :
    findApproval (approvedStore uid now aid db appr rule) aid =
      (findApproval db aid).map fun b =>
        if b.id = aid then { b with is_approved := some true, approved_at := some now }
        else b := by
  have hap : (approvedStore uid now aid db appr rule).approvals =
      db.approvals.map (fun b =>
        if b.id = aid then { b with is_approved := some true, approved_at := some now }
        else b) := rfl
  unfold findApproval
  rw [hap]
  exact find?_map_id_preserved _ _ _ (fun b => by by_cases h : b.id = aid <;> simp [h])

theorem findRule_approvedStore (uid now aid : Nat) (db : DB) (appr : PendingApproval)
    (rule : RecurrentTransaction) (rid : Nat) :
    findRule (approvedStore uid now aid db appr rule) rid =
      (findRule db rid).map fun r2 =>
        if r2.id = rule.id then { r2 with last_generated_date := some appr.scheduled_date }
        else r2 := by
  have hrp : (approvedStore uid now aid db appr rule).rules =
      db.rules.map (fun r2 =>
        if r2.id = rule.id then { r2 with last_generated_date := some appr.scheduled_date }
        else r2) := rfl
  unfold findRule
  rw [hrp]
  exact find?_map_id_preserved _ _ _ (fun r2 => by by_cases h : r2.id = rule.id <;> simp [h])

/-- C3 (amended): approving a pending-approval id whose record is still
pending and whose rule exists succeeds, appends exactly one transaction
dated scheduled_date, marks the approval approved and stamps the marker
with scheduled_date; but the source performs no already-decided check, so
a second approve on the same id succeeds again (instead of failing with a
NotFound or already-decided error) and appends a second transaction. -/
theorem c3_approve_no_guard (db : DB) (uid now now2 aid : Nat) (appr : PendingApproval)
    (rule : RecurrentTransaction)
    (ha : findApproval db aid = some appr)
    (_hpend : appr.is_approved = none)
    (hru : findRule db appr.recurrent_transaction_id = some rule) :
    approvePendingTransaction uid now aid db =
      Except.ok (approvedStore uid now aid db appr rule) ∧
    (approvedStore uid now aid db appr rule).transactions = db.transactions ++
      [{ user_id := uid, category_id := rule.category_id, amount := rule.amount,
         description := rule.description, date := appr.scheduled_date, type := rule.type,
         recurrent_transaction_id := some rule.id }] ∧
    (∀ a ∈ (approvedStore uid now aid db appr rule).approvals, a.id = aid →
      a.is_approved = some true) ∧
    (∀ r2 ∈ (approvedStore uid now aid db appr rule).rules, r2.id = rule.id →
      r2.last_generated_date = some appr.scheduled_date) ∧
    ∃ db2,
      approvePendingTransaction uid now2 aid (approvedStore uid now aid db appr rule) =
        Except.ok db2 ∧
      db2.transactions.length = db.transactions.length + 2 := by
  have ha' : db.approvals.find? (fun a => a.id == aid) = some appr := ha
  have hid : appr.id = aid := by
    have hp := List.find?_some ha'
    simpa using hp
  have h1 : approvePendingTransaction uid now aid db =
      Except.ok (approvedStore uid now aid db appr rule) := by
    simp [approvePendingTransaction, approvedStore, ha, hru]
  refine ⟨h1, rfl, ?_, ?_, ?_⟩
  · intro a hmem hid2
    have hap : (approvedStore uid now aid db appr rule).approvals =
        db.approvals.map (fun b =>
          if b.id = aid then { b with is_approved := some true, approved_at := some now }
          else b) := rfl
    rw [hap] at hmem
    obtain ⟨b, hb, hba⟩ := List.mem_map.mp hmem
    by_cases hbid : b.id = aid
    · rw [← hba]
      simp [hbid]
    · rw [← hba] at hid2
      simp [hbid] at hid2
  · intro r2 hmem hid2
    have hrp : (approvedStore uid now aid db appr rule).rules =
        db.rules.map (fun b =>
          if b.id = rule.id then { b with last_generated_date := some appr.scheduled_date }
          else b) := rfl
    rw [hrp] at hmem
    obtain ⟨b, hb, hba⟩ := List.mem_map.mp hmem
    by_cases hbid : b.id = rule.id
    · rw [← hba]
      simp [hbid]
    · rw [← hba] at hid2
      simp [hbid] at hid2
  · have hfa2 := findApproval_approvedStore uid now aid db appr rule
    rw [ha] at hfa2
    simp [hid] at hfa2
    have hfr2 := findRule_approvedStore uid now aid db appr rule appr.recurrent_transaction_id
    rw [hru] at hfr2
    simp at hfr2
    refine ⟨approvedStore uid now2 aid (approvedStore uid now aid db appr rule)
      { appr with is_approved := some true, approved_at := some now }
      { rule with last_generated_date := some appr.scheduled_date }, ?_, ?_⟩
    · unfold approvePendingTransaction
      rw [hfa2]
      simp only [hfr2]
      rfl
    · have htr : (approvedStore uid now2 aid (approvedStore uid now aid db appr rule)
          { appr with is_approved := some true, approved_at := some now }
          { rule with last_generated_date := some appr.scheduled_date }).transactions =
          db.transactions ++
            [{ user_id := uid, category_id := rule.category_id, amount := rule.amount,
               description := rule.description, date := appr.scheduled_date,
               type := rule.type, recurrent_transaction_id := some rule.id }] ++
            [{ user_id := uid, category_id := rule.category_id, amount := rule.amount,
               description := rule.description, date := appr.scheduled_date,
               type := rule.type, recurrent_transaction_id := some rule.id }] := rfl
      rw [htr]
      simp [List.length_append]

/-- C3 witness at the concrete store c3db holding the pending approval
c3approval of rule c3rule. -/
theorem c3_approve_no_guard_witness :
    approvePendingTransaction 7 100 1 c3db =
      Except.ok (approvedStore 7 100 1 c3db c3approval c3rule) ∧
    (approvedStore 7 100 1 c3db c3approval c3rule).transactions = c3db.transactions ++
      [{ user_id := 7, category_id := c3rule.category_id, amount := c3rule.amount,
         description := c3rule.description, date := c3approval.scheduled_date,
         type := c3rule.type, recurrent_transaction_id := some c3rule.id }] ∧
    (∀ a ∈ (approvedStore 7 100 1 c3db c3approval c3rule).approvals, a.id = 1 →
      a.is_approved = some true) ∧
    (∀ r2 ∈ (approvedStore 7 100 1 c3db c3approval c3rule).rules, r2.id = c3rule.id →
      r2.last_generated_date = some c3approval.scheduled_date) ∧
    ∃ db2,
      approvePendingTransaction 7 101 1 (approvedStore 7 100 1 c3db c3approval c3rule) =
        Except.ok db2 ∧
      db2.transactions.length = c3db.transactions.length + 2 :=
  c3_approve_no_guard c3db 7 100 101 1 c3approval c3rule rfl rfl rfl

/-- C3 counterexample: approving the pending approval of c3db succeeds and
creates one transaction, but approving the same id a second time succeeds
again (instead of failing with a NotFound or already-decided error) and a
second transaction exists afterwards. -/
theorem c3_approve_counterexample :
    c3approval.is_approved = none ∧
    okB (approvePendingTransaction 7 100 1 c3db) = true ∧
    (runState (approvePendingTransaction 7 100 1 c3db)).transactions.length = 1 ∧
    okB (approvePendingTransaction 7 101 1
      (runState (approvePendingTransaction 7 100 1 c3db))) = true ∧
    (runState (approvePendingTransaction 7 101 1
      (runState (approvePendingTransaction 7 100 1 c3db)))).transactions.length = 2 := by
  decide
